import Mathlib

/-!
Verification development for the SDK manager subsystem of the pebble-tool
repository (`pebble_tool/sdk/manager.py`).

Python strings are modelled as `List Char` (`PStr` below); the structural
char-list functions mirror the Python string operations used by the code
(`str.split`, `str.startswith`, substring containment, `int()`).  The
filesystem is modelled as the list of paths that currently exist; every
stored path is the resolved name of a real file or directory.
-/

/-- Python strings / path strings are modelled as lists of characters. -/
abbrev PStr := List Char

/-- Convert a Lean string literal to the char-list model. -/
def pstr (s : String) : PStr := s.data

/-- Is `pre` a prefix of `s` (char-by-char)?  Mirrors Python `s.startswith(pre)`. -/
def chStarts (s pre : PStr) : Bool :=
  match pre, s with
  | [], _ => true
  | _ :: _, [] => false
  | a :: as, b :: bs => a == b && chStarts bs as

/-- Python string `<`: lexicographic comparison by code point. -/
def chLt : PStr → PStr → Bool
  | [], [] => false
  | [], _ :: _ => true
  | _ :: _, [] => false
  | a :: as, b :: bs => if a = b then chLt as bs else decide (a < b)

/-- Split on a single-character separator; mirrors Python `s.split(sep)`
(so the empty string yields `[""]`). -/
def chSplit (sep : Char) : PStr → List PStr
  | [] => [[]]
  | c :: rest =>
    if c = sep then [] :: chSplit sep rest
    else
      match chSplit sep rest with
      | h :: t => (c :: h) :: t
      | [] => [[c]]

/-- Split at the first occurrence of `sep`; mirrors Python `s.split(sep, 1)`
(returning the head part and, when the separator occurs, the tail part). -/
def splitFirst (sep : Char) : PStr → PStr × Option PStr
  | [] => ([], none)
  | c :: rest =>
    if c = sep then ([], some rest)
    else
      let r := splitFirst sep rest
      (c :: r.1, r.2)

/-- Join segments with a single-character separator;
mirrors Python `sep.join(parts)`. -/
def chJoin (sep : Char) : List PStr → PStr
  | [] => []
  | [s] => s
  | s :: rest => s ++ sep :: chJoin sep rest

/-- Does the two-character substring ".." occur anywhere in the string?
Mirrors Python `'..' in filename`. -/
def hasDotDot : PStr → Bool
  | c1 :: c2 :: rest => (c1 = '.' && c2 = '.') || hasDotDot (c2 :: rest)
  | _ => false

/-- Decimal digit value of a character, if it is a digit. -/
def digitVal? (c : Char) : Option Nat :=
  if '0' ≤ c && c ≤ '9' then some (c.toNat - '0'.toNat) else none

/-- Accumulating decimal parser over the remaining characters. -/
def chToNatAux : PStr → Nat → Option Nat
  | [], acc => some acc
  | c :: rest, acc =>
    match digitVal? c with
    | some d => chToNatAux rest (acc * 10 + d)
    | none => none

/-- Parse a non-empty all-digit string as a natural number
(`none` on the empty string or any non-digit character). -/
def chToNat? : PStr → Option Nat
  | [] => none
  | l => chToNatAux l 0

/-- Parse an optionally `-`-signed integer; models Python `int()` on the
version components that matter here (no whitespace or `+` handling, which no
claim exercises). -/
def chToInt? : PStr → Option Int
  | '-' :: rest => (chToNat? rest).map (fun n => -(n : Int))
  | l => (chToNat? l).map (fun n => (n : Int))

/-- Version-ordering key: the 6-tuple
`(major, minor, patch, prereleaseClass, prereleaseNumber, fallback)`
compared lexicographically, exactly as Python compares the tuples produced
by `version_to_key`. -/
structure VKey where
  major : Int
  minor : Int
  patch : Int
  stage : Int
  counter : Int
  fallback : PStr
deriving DecidableEq

/-- One lexicographic comparison step: strictly smaller on this field, or
equal on this field and strictly smaller on the rest. -/
def lexStep (x y : Int) (rest : Bool) : Bool :=
  decide (x < y) || (decide (x = y) && rest)

/-- Python tuple `<` on version keys (lexicographic field by field, with the
string fallback compared last). -/
def keyLt (a b : VKey) : Bool :=
  lexStep a.major b.major (lexStep a.minor b.minor (lexStep a.patch b.patch
    (lexStep a.stage b.stage (lexStep a.counter b.counter
      (chLt a.fallback b.fallback)))))

/-- Parse a dotted numeric version body of one to three components,
zero-padding on the right (spec 4.1: fewer than 3 dot-separated numeric
components are zero-padded). -/
def parseDotted (s : PStr) : Option (Int × Int × Int) :=
  match (chSplit '.' s).mapM chToNat? with
  | some [a] => some ((a : Int), (0 : Int), (0 : Int))
  | some [a, b] => some ((a : Int), (b : Int), (0 : Int))
  | some [a, b, c] => some ((a : Int), (b : Int), (c : Int))
  | _ => none

/-- Parse a build-stage suffix into its class rank and numeric counter:
dev-preview (`dp`) < beta < rc < release, ranked -3 < -2 < -1 < 0. -/
def suffixClassNum (suf : PStr) : Option (Int × Int) :=
  if chStarts suf (pstr "dp") then
    (chToNat? (suf.drop 2)).map (fun n => ((-3 : Int), (n : Int)))
  else if chStarts suf (pstr "beta") then
    (chToNat? (suf.drop 4)).map (fun n => ((-2 : Int), (n : Int)))
  else if chStarts suf (pstr "rc") then
    (chToNat? (suf.drop 2)).map (fun n => ((-1 : Int), (n : Int)))
  else none

/-- Modelled from the spec: the helper module `pebble_tool/util/versions.py`
that defines `version_to_key` is not among the sources (only its callers and
its tests are).  This definition follows spec section 4.1 — dotted numeric
prefix zero-padded to three components, build-stage suffix classes ranked
dev-preview < beta < rc < release each with a numeric counter, and any string
with no parseable dotted-numeric structure mapping to an all-zero numeric
prefix with the raw string in the fallback field — and it reproduces all
seven `TestVersionToKey` vectors from `tests/test_utils.py`. -/
def version_to_key (s : PStr) : VKey :=
  match splitFirst '-' s with
  | (base, none) =>
    match parseDotted base with
    | some (a, b, c) => ⟨a, b, c, 0, 0, []⟩
    | none => ⟨0, 0, 0, 0, 0, s⟩
  | (base, some suf) =>
    match parseDotted base, suffixClassNum suf with
    | some (a, b, c), some (cl, n) => ⟨a, b, c, cl, n, []⟩
    | _, _ => ⟨0, 0, 0, 0, 0, s⟩

/-- Python `ValueError` (and kin) for the fallible translations. -/
inductive PyError
  | valueError
  | osError
  | sdkInstallError
  | missingSDK
deriving DecidableEq

/-- Mirror of Python `s.split('.', 2)`: at most two splits, the third part
keeping any further dots. -/
def splitDotAtMost2 (s : PStr) : List PStr :=
  match chSplit '.' s with
  | a :: b :: c :: rest => [a, b, chJoin '.' (c :: rest)]
  | parts => parts

/-- `SDKManager.parse_version` (manager.py lines 364-366):
`tuple(list(map(int, version_string.split('-', 1)[0].split('.', 2))) + [0, 0])[:3]`.
`int()` raises `ValueError` on a component that is not an integer literal,
which this translation surfaces as `Except.error`. -/
def parse_version (s : PStr) : Except PyError (Int × Int × Int) :=
  let base := (splitFirst '-' s).1
  match (splitDotAtMost2 base).mapM chToInt? with
  | none => .error .valueError
  | some [] => .ok (0, 0, 0)
  | some [a] => .ok (a, 0, 0)
  | some [a, b] => .ok (a, b, 0)
  | some (a :: b :: c :: _) => .ok (a, b, c)

/-! ### Python `sorted` as a stable insertion sort -/

/-- Insert `x` into a sorted list, before the first element `y` with
`le x y`; together with `pySorted` this computes exactly the output of a
stable sort by the boolean relation `le`. -/
def pyInsert (le : α → α → Bool) (x : α) : List α → List α
  | [] => [x]
  | y :: ys => if le x y then x :: y :: ys else y :: pyInsert le x ys

/-- Stable sort by the boolean relation `le`; models Python
`sorted(xs, key=..., reverse=True)` when `le` compares the keys reversed. -/
def pySorted (le : α → α → Bool) : List α → List α
  | [] => []
  | x :: xs => pyInsert le x (pySorted le xs)

/-! ### Path handling: `os.path.join`, `os.path.normpath` -/

/-- Collapse the segments of an absolute path: drop empty and `.` segments,
let `..` pop the previous segment (or vanish at the root), as
`os.path.normpath` does on absolute paths. -/
def collapseAbs (acc : List PStr) : List PStr → List PStr
  | [] => acc.reverse
  | s :: rest =>
    if s = [] || s = ['.'] then collapseAbs acc rest
    else if s = ['.', '.'] then
      match acc with
      | [] => collapseAbs [] rest
      | _ :: t => collapseAbs t rest
    else collapseAbs (s :: acc) rest

/-- Collapse the segments of a relative path: as `collapseAbs`, except that
leading `..` segments are kept. -/
def collapseRel (acc : List PStr) : List PStr → List PStr
  | [] => acc.reverse
  | s :: rest =>
    if s = [] || s = ['.'] then collapseRel acc rest
    else if s = ['.', '.'] then
      match acc with
      | [] => collapseRel [pstr ".."] rest
      | p :: t =>
        if p = pstr ".." then collapseRel (s :: p :: t) rest
        else collapseRel t rest
    else collapseRel (s :: acc) rest

/-- `os.path.normpath`. -/
def normPath (p : PStr) : PStr :=
  if chStarts p ['/'] then
    '/' :: chJoin '/' (collapseAbs [] (chSplit '/' p))
  else
    let segs := collapseRel [] (chSplit '/' p)
    if segs.isEmpty then ['.'] else chJoin '/' segs

/-- `os.path.join` for the two-argument uses in the manager: an absolute
second component replaces the first, otherwise the components are joined
with a slash. -/
def joinPath (a b : PStr) : PStr :=
  if chStarts b ['/'] then b else a ++ '/' :: b

/-! ### The installer pipeline (`SDKManager._install_from_handle` and
`SDKManager._install_toolchain_from_handle`) -/

/-- The fields of `sdk-core/manifest.json` that the installer reads: the
`version` string, and the verdict of the external requirements checker
(`Requirements(...).ensure_satisfied()`) on the `requirements` field, which
is opaque to the manager itself. -/
structure SdkManifest where
  version : PStr
  requirementsOk : Bool
deriving DecidableEq

/-- An SDK archive handle: the parsed manifest member (`none` when
`t.extractfile('sdk-core/manifest.json')` or `json.load` fails) and the
member names returned by `t.getnames()`. -/
structure SdkArchive where
  manifest : Option SdkManifest
  members : List PStr
deriving DecidableEq

/-- A toolchain archive handle: just its member names. -/
structure ToolchainArchive where
  members : List PStr
deriving DecidableEq

/-- Failure injection for the steps of the pipeline whose success depends on
the outside world (subprocesses, the network, disk writes). -/
structure Faults where
  extractFails : Bool
  venvFails : Bool
  pipFails : Bool
  npmFails : Bool
  downloadFails : Bool
  toolchainExtractFails : Bool
  moveFails : Bool
deriving DecidableEq

/-- A fault assignment in which every injected step succeeds. -/
def noFaults : Faults := ⟨false, false, false, false, false, false, false⟩

/-- The errors the pipeline can propagate (`SDKInstallError` values carry the
text shown; subprocess and IO errors are represented by their step). -/
inductive PipeError
  | alreadyInstalled (version : PStr)
  | questionableFile (filename : PStr)
  | suspiciousVersion (what : PStr)
  | manifestUnreadable
  | requirementsUnmet
  | extractionFailed
  | venvFailed
  | pipFailed
  | npmFailed
  | downloadFailed
  | toolchainExtractionFailed
  | platformFolderMissing
  | moveFailed
  | setCurrentFailed
deriving DecidableEq

/-- Errors raised by the two archive-security checks (member-name check and
destination-containment check); both carry the offending member or path. -/
def isSecurityError : PipeError → Bool
  | .questionableFile _ => true
  | .suspiciousVersion _ => true
  | _ => false

/-- Manager configuration: the normalized SDK root (`self.sdk_dir`) and the
host platform name used for the toolchain download. -/
structure SdkEnv where
  sdkDir : PStr
  platformName : PStr
deriving DecidableEq

/-- Manager state: the set of existing filesystem paths (each stored in its
resolved form) and the target of the `<root>/current` symlink, if any. -/
structure AState where
  fs : List PStr
  current : Option PStr
deriving DecidableEq

/-- `os.path.exists` against the resolved path set. -/
def fsExists (fs : List PStr) (p : PStr) : Bool := decide (p ∈ fs)

/-- `shutil.rmtree`: remove the directory and everything below it. -/
def rmtreeFS (fs : List PStr) (p : PStr) : List PStr :=
  fs.filter (fun q => !(decide (q = p) || chStarts q (p ++ ['/'])))

/-- `t.extractall(dst)`: each archive member is written below `dst`.  The
pipeline only reaches extraction after rejecting absolute and `..`-bearing
member names, so the member names are used as-is. -/
def extractAll (fs : List PStr) (dst : PStr) (members : List PStr) : List PStr :=
  fs ++ members.map (fun m => dst ++ '/' :: m)

/-- The member-name filter of both installers:
`filename.startswith('/') or '..' in filename`. -/
def badMember (m : PStr) : Bool := chStarts m ['/'] || hasDotDot m

/-- Spec 4.3's notion of the destination remaining lexically inside the SDK
root: the destination is the root itself or lies in the root's subtree.
This is a statement-side definition used to express claim C2; the code's
own check is `path.startswith(self.sdk_dir)`. -/
def lexInside (root p : PStr) : Bool := p == root || chStarts p (root ++ ['/'])

/-- The toolchain directory of a version:
`os.path.normpath(os.path.join(self.sdk_dir, sdk_version, "toolchain"))`. -/
def toolchainDirOf (env : SdkEnv) (v : PStr) : PStr :=
  normPath (joinPath env.sdkDir (v ++ '/' :: pstr "toolchain"))

/-- The platform-named top-level folder inside the toolchain directory,
`toolchain-<platform>`. -/
def platformBaseOf (env : SdkEnv) (v : PStr) : PStr :=
  toolchainDirOf env v ++ '/' :: (pstr "toolchain-" ++ env.platformName)

/-- `SDKManager._install_toolchain_from_handle` (manager.py lines 194-213):
member-name check, containment check, `os.mkdir`, `extractall`, then the
platform folder's contents are moved up one level (`shutil.move` of each
`os.listdir` entry, a missing platform folder raising at `os.listdir`) and
the emptied folder removed by `os.rmdir`.  Returns the filesystem as mutated
so far together with the raised error, if any. -/
def installToolchainFromHandle (env : SdkEnv) (fs : List PStr)
    (tarch : ToolchainArchive) (faults : Faults) (sdkVersion : PStr) :
    List PStr × Option PipeError :=
  match tarch.members.find? badMember with
  | some f => (fs, some (.questionableFile f))
  | none =>
    if !(chStarts (toolchainDirOf env sdkVersion) env.sdkDir) then
      (fs, some (.suspiciousVersion (toolchainDirOf env sdkVersion)))
    else if faults.toolchainExtractFails then
      (toolchainDirOf env sdkVersion :: fs, some .toolchainExtractionFailed)
    else if !(fsExists (extractAll (toolchainDirOf env sdkVersion :: fs)
        (toolchainDirOf env sdkVersion) tarch.members) (platformBaseOf env sdkVersion)) then
      (extractAll (toolchainDirOf env sdkVersion :: fs) (toolchainDirOf env sdkVersion)
        tarch.members, some .platformFolderMissing)
    else if faults.moveFails then
      (extractAll (toolchainDirOf env sdkVersion :: fs) (toolchainDirOf env sdkVersion)
        tarch.members, some .moveFailed)
    else
      (((extractAll (toolchainDirOf env sdkVersion :: fs) (toolchainDirOf env sdkVersion)
          tarch.members).map (fun p =>
            if chStarts p (platformBaseOf env sdkVersion ++ ['/']) then
              toolchainDirOf env sdkVersion ++ '/' :: p.drop ((platformBaseOf env sdkVersion).length + 1)
            else p)).filter (fun p => !(decide (p = platformBaseOf env sdkVersion))), none)

/-- Result of the body of `_install_from_handle`'s `try:` block: the state
reached, the exception raised (if any), and the value of the Python local
`path` at that moment (`none` while it is still `None`). -/
structure AttemptOut where
  st : AState
  err : Option PipeError
  pathVar : Option PStr
deriving DecidableEq

/-- Tail of the `try:` body of `_install_from_handle` (manager.py lines
177-180): `set_current_sdk` (which raises unless the version's directory
exists, then replaces the `current` symlink), followed by the toolchain
download and `_install_toolchain_from_handle`. -/
def installFinish (env : SdkEnv) (st : AState) (tarch : ToolchainArchive)
    (faults : Faults) (info : SdkManifest) (path : PStr) : AttemptOut :=
  if !(fsExists st.fs (normPath (joinPath env.sdkDir info.version))) then
    ⟨st, some .setCurrentFailed, some path⟩
  else
    if faults.downloadFails then
      ⟨⟨st.fs, some (joinPath env.sdkDir info.version)⟩, some .downloadFailed, some path⟩
    else
      match installToolchainFromHandle env st.fs tarch faults info.version with
      | (fsT, some e) =>
        ⟨⟨fsT, some (joinPath env.sdkDir info.version)⟩, some e, some path⟩
      | (fsT, none) =>
        ⟨⟨fsT, some (joinPath env.sdkDir info.version)⟩, none, some path⟩

/-- Middle of the `try:` body of `_install_from_handle` (manager.py lines
163-175): create the venv, install Python dependencies, and — only when
`sdk-core/package.json` was extracted — create `node_modules`, copy the
`package.json` and run npm. -/
def installDeps (env : SdkEnv) (st : AState) (tarch : ToolchainArchive)
    (faults : Faults) (info : SdkManifest) (path : PStr) : AttemptOut :=
  if faults.venvFails then ⟨st, some .venvFailed, some path⟩
  else
    if faults.pipFails then
      ⟨⟨(path ++ '/' :: pstr ".venv") :: st.fs, st.current⟩, some .pipFailed, some path⟩
    else
      if fsExists ((path ++ '/' :: pstr ".venv") :: st.fs)
          (path ++ '/' :: pstr "sdk-core/package.json") then
        if faults.npmFails then
          ⟨⟨(path ++ '/' :: pstr "package.json") :: (path ++ '/' :: pstr "node_modules") ::
            (path ++ '/' :: pstr ".venv") :: st.fs, st.current⟩, some .npmFailed, some path⟩
        else
          installFinish env
            ⟨(path ++ '/' :: pstr "package.json") :: (path ++ '/' :: pstr "node_modules") ::
              (path ++ '/' :: pstr ".venv") :: st.fs, st.current⟩ tarch faults info path
      else
        installFinish env ⟨(path ++ '/' :: pstr ".venv") :: st.fs, st.current⟩
          tarch faults info path

/-- `os.mkdir` of the destination followed by `t.extractall(path)`
(manager.py lines 161-162); the caller passes the state with the destination
directory already created. -/
def installBuild (env : SdkEnv) (st : AState) (arch : SdkArchive)
    (tarch : ToolchainArchive) (faults : Faults) (info : SdkManifest)
    (path : PStr) : AttemptOut :=
  if faults.extractFails then ⟨st, some .extractionFailed, some path⟩
  else installDeps env ⟨extractAll st.fs path arch.members, st.current⟩ tarch faults info path

/-- The `try:` body of `SDKManager._install_from_handle` (manager.py lines
146-182): read the manifest member, compute the destination from the
manifest's version, fail if it exists, run the member-name and containment
checks, check requirements, create the destination directory, then hand over
to extraction (`installBuild`), dependency installation (`installDeps`) and
the finishing steps (`installFinish`). -/
def installAttempt (env : SdkEnv) (st : AState) (arch : SdkArchive)
    (tarch : ToolchainArchive) (faults : Faults) : AttemptOut :=
  match arch.manifest with
  | none => ⟨st, some .manifestUnreadable, none⟩
  | some info =>
    if fsExists st.fs (normPath (joinPath env.sdkDir info.version)) then
      ⟨st, some (.alreadyInstalled info.version),
       some (normPath (joinPath env.sdkDir info.version))⟩
    else
      match arch.members.find? badMember with
      | some f =>
        ⟨st, some (.questionableFile f), some (normPath (joinPath env.sdkDir info.version))⟩
      | none =>
        if !(chStarts (normPath (joinPath env.sdkDir info.version)) env.sdkDir) then
          ⟨st, some (.suspiciousVersion info.version),
           some (normPath (joinPath env.sdkDir info.version))⟩
        else if !info.requirementsOk then
          ⟨st, some .requirementsUnmet, some (normPath (joinPath env.sdkDir info.version))⟩
        else
          installBuild env ⟨normPath (joinPath env.sdkDir info.version) :: st.fs, st.current⟩
            arch tarch faults info (normPath (joinPath env.sdkDir info.version))

/-- `SDKManager._install_from_handle` including its `except:` handler
(manager.py lines 183-192): on any exception, if the Python local `path` is
set and that path exists, best-effort `shutil.rmtree(path)` (an `OSError`
from the deletion is swallowed), then the original exception is re-raised. -/
def installFromHandle (env : SdkEnv) (st : AState) (arch : SdkArchive)
    (tarch : ToolchainArchive) (faults : Faults) (cleanupFails : Bool) :
    AState × Option PipeError :=
  let r := installAttempt env st arch tarch faults
  match r.err with
  | none => (r.st, none)
  | some e =>
    match r.pathVar with
    | none => (r.st, some e)
    | some p =>
      if fsExists r.st.fs p then
        if cleanupFails then (r.st, some e)
        else (⟨rmtreeFS r.st.fs p, r.st.current⟩, some e)
      else (r.st, some e)

/-! ### The registry and current-pointer model (`list_local_sdks`,
`get_current_sdk`, `set_current_sdk`, `uninstall_sdk`) -/

/-- State of the fixed manifest file `<name>/sdk-core/manifest.json` inside a
directory of the SDK root: absent, present with syntax `json.load` rejects
(`ValueError`), or parsed with the given `version` field. -/
inductive ManifestFile
  | missing
  | invalidSyntax
  | validManifest (version : PStr)
deriving DecidableEq

/-- One entry of the SDK root directory: either a symlink (as the `current`
pointer is) naming its target entry, or a real directory with its manifest
state. -/
inductive DirEntry
  | symlinkTo (target : PStr)
  | realDir (mf : ManifestFile)
deriving DecidableEq

/-- The SDK root directory: its entries in listing order.  The `current`
pointer is the entry named `current`, a symlink to a version directory. -/
structure SdkRoot where
  entries : List (PStr × DirEntry)
deriving DecidableEq

/-- First entry with the given name, as the filesystem would resolve it. -/
def lookupPairs (l : List (PStr × DirEntry)) (n : PStr) : Option DirEntry :=
  (l.find? (fun e => decide (e.1 = n))).map Prod.snd

/-- Look up a directory entry of the SDK root by name. -/
def lookupEntry (r : SdkRoot) (name : PStr) : Option DirEntry :=
  lookupPairs r.entries name

/-- Delete the entry with the given name (`shutil.rmtree` of a version
directory, or `os.unlink` of the `current` symlink). -/
def removeEntry (r : SdkRoot) (name : PStr) : SdkRoot :=
  ⟨r.entries.filter (fun e => !(decide (e.1 = name)))⟩

/-- `os.path.exists(os.path.join(self.sdk_dir, name))`, following one level
of symlink as the kernel does (symlink chains do not occur in this model). -/
def entryExistsFS (r : SdkRoot) (name : PStr) : Bool :=
  match lookupEntry r name with
  | some (.realDir _) => true
  | some (.symlinkTo t) =>
    match lookupEntry r t with
    | some (.realDir _) => true
    | _ => false
  | none => false

/-- `SDKManager.list_local_sdks` (manager.py lines 35-55): enumerate the SDK
root, skip symlinks (`os.path.islink`), skip entries without a manifest file,
swallow `json.load` `ValueError`s, and collect the parsed manifests — here
represented by their `version` field, the only one the callers use. -/
def list_local_sdks (r : SdkRoot) : List PStr :=
  r.entries.filterMap (fun e =>
    match e.2 with
    | .symlinkTo _ => none
    | .realDir .missing => none
    | .realDir .invalidSyntax => none
    | .realDir (.validManifest v) => some v)

/-- `SDKManager.list_local_sdk_versions`: the version of each listed
manifest. -/
def list_local_sdk_versions (r : SdkRoot) : List PStr := list_local_sdks r

/-- Target of the `current` symlink, when it exists and is a symlink. -/
def currentTarget (r : SdkRoot) : Option PStr :=
  match lookupEntry r (pstr "current") with
  | some (.symlinkTo t) => some t
  | _ => none

/-- `SDKManager.get_current_sdk` with the `current_path` property (manager.py
lines 250-257 and 338-343): `None` when `<root>/current` does not resolve to
an existing directory or when that directory has no manifest file; the
manifest's `version` when it parses; a raised `ValueError` (uncaught in the
source) when the manifest file exists but `json.load` rejects it. -/
def get_current_sdk (r : SdkRoot) : Except PyError (Option PStr) :=
  match lookupEntry r (pstr "current") with
  | none => .ok none
  | some (.realDir mf) =>
    match mf with
    | .missing => .ok none
    | .invalidSyntax => .error .valueError
    | .validManifest v => .ok (some v)
  | some (.symlinkTo t) =>
    match lookupEntry r t with
    | some (.realDir mf) =>
      match mf with
      | .missing => .ok none
      | .invalidSyntax => .error .valueError
      | .validManifest v => .ok (some v)
    | _ => .ok none

/-- `SDKManager.set_current_sdk` (manager.py lines 239-248): fail when the
version's directory does not exist, otherwise best-effort-unlink the
existing `current` symlink and create a fresh one. -/
def set_current_sdk (r : SdkRoot) (version : PStr) : Except PyError SdkRoot :=
  if !(entryExistsFS r version) then .error .sdkInstallError
  else .ok ⟨(pstr "current", .symlinkTo version) :: (removeEntry r (pstr "current")).entries⟩

/-- Key-wise greater-or-equal on version strings: `a` may precede `b` in the
descending order used by `uninstall_sdk`. -/
def keyGeB (a b : PStr) : Bool := !(keyLt (version_to_key a) (version_to_key b))

/-- The descending sort used by `uninstall_sdk`:
`sorted(versions, reverse=True, key=version_to_key)`. -/
def sortedDescByKey (l : List PStr) : List PStr := pySorted keyGeB l

/-- `SDKManager.uninstall_sdk` (manager.py lines 64-72): read the current
SDK, remove the version's tree (`MissingSDK` when absent), and when the
removed version was current, repoint `current` at the highest remaining
version by `version_to_key`, or unlink it when none remain. -/
def uninstall_sdk (r : SdkRoot) (version : PStr) : Except PyError SdkRoot :=
  match get_current_sdk r with
  | .error e => .error e
  | .ok cur =>
    if !(entryExistsFS r version) then .error .missingSDK
    else
      let r1 := removeEntry r version
      if cur = some version then
        match sortedDescByKey (list_local_sdk_versions r1) with
        | top :: _ => set_current_sdk r1 top
        | [] =>
          match lookupEntry r1 (pstr "current") with
          | some _ => .ok (removeEntry r1 (pstr "current"))
          | none => .error .osError
      else .ok r1

/-! ### Concrete installer scenarios -/

/-- SDK root `/sdks` on a Linux host. -/
def envStd : SdkEnv := ⟨pstr "/sdks", pstr "linux"⟩

/-- A root in which version 1.0 is already installed. -/
def stWith10 : AState :=
  ⟨[pstr "/", pstr "/sdks", pstr "/sdks/1.0", pstr "/sdks/1.0/sdk-core",
    pstr "/sdks/1.0/sdk-core/manifest.json"], none⟩

/-- A well-formed archive whose manifest names version 1.0. -/
def arch10 : SdkArchive :=
  ⟨some ⟨pstr "1.0", true⟩, [pstr "sdk-core", pstr "sdk-core/manifest.json"]⟩

/-- An empty toolchain archive (never reached in the C1 scenario). -/
def tarchEmpty : ToolchainArchive := ⟨[]⟩

/-- A fresh root with no installed SDK. -/
def stFresh : AState := ⟨[pstr "/", pstr "/sdks"], none⟩

/-- An archive whose manifest's version field is crafted as `../sdks-evil`,
resolving to `/sdks-evil`, a sibling of the SDK root. -/
def archEvil : SdkArchive :=
  ⟨some ⟨pstr "../sdks-evil", true⟩,
   [pstr "sdk-core", pstr "sdk-core/manifest.json", pstr "sdk-core/requirements.txt"]⟩

/-- A well-formed Linux toolchain archive. -/
def tarchStd : ToolchainArchive :=
  ⟨[pstr "toolchain-linux", pstr "toolchain-linux/arm-cs-tools"]⟩

/-- A root whose `current` pointer targets a directory whose manifest file
exists but does not parse. -/
def rootBadCurrent : SdkRoot :=
  ⟨[(pstr "current", .symlinkTo (pstr "1.0")), (pstr "1.0", .realDir .invalidSyntax)]⟩

/-- A well-formed archive for version 1.1. -/
def arch11 : SdkArchive :=
  ⟨some ⟨pstr "1.1", true⟩, [pstr "sdk-core", pstr "sdk-core/manifest.json"]⟩

/-- Faults in which the venv-creation subprocess fails (a step after the
destination directory was created). -/
def faultsVenv : Faults := ⟨false, true, false, false, false, false, false⟩

/-- An archive carrying an absolute member name. -/
def archBadMember : SdkArchive :=
  ⟨some ⟨pstr "2.0", true⟩, [pstr "sdk-core", pstr "/etc/passwd"]⟩

/-- An archive whose manifest version is an absolute path, so the resolved
destination fails the prefix check. -/
def archAbsVersion : SdkArchive := ⟨some ⟨pstr "/abs", true⟩, [pstr "sdk-core"]⟩

/-- An SDK archive containing the traversal-free name `sdk-core/a..b.txt`. -/
def archDotDot : SdkArchive :=
  ⟨some ⟨pstr "2.1", true⟩, [pstr "sdk-core", pstr "sdk-core/a..b.txt"]⟩

/-- A toolchain archive containing the traversal-free name
`sdk-core/a..b.txt`. -/
def tarchDotDot : ToolchainArchive :=
  ⟨[pstr "toolchain-linux", pstr "sdk-core/a..b.txt"]⟩

/-- A healthy root: current targets 1.0, whose manifest parses. -/
def rootGoodCurrent : SdkRoot :=
  ⟨[(pstr "current", .symlinkTo (pstr "1.0")),
    (pstr "1.0", .realDir (.validManifest (pstr "1.0"))),
    (pstr "0.9", .realDir .missing)]⟩

/-- Well-formedness of a root for the uninstall theorem: every directory
with a parseable manifest is named by its manifest's version, as the
installer lays versions out on disk. -/
def namesMatchB (r : SdkRoot) : Bool :=
  r.entries.all (fun e =>
    match e.2 with
    | .realDir (.validManifest w) => decide (w = e.1)
    | _ => true)

/-- Root with current at 3.0.0 and versions 3.0.0, 2.0.0, 1.5.0 installed. -/
def rootC6 : SdkRoot :=
  ⟨[(pstr "current", .symlinkTo (pstr "3.0.0")),
    (pstr "3.0.0", .realDir (.validManifest (pstr "3.0.0"))),
    (pstr "2.0.0", .realDir (.validManifest (pstr "2.0.0"))),
    (pstr "1.5.0", .realDir (.validManifest (pstr "1.5.0")))]⟩

/-- The root after uninstalling 3.0.0: current repointed at 2.0.0. -/
def rootC6After : SdkRoot :=
  ⟨[(pstr "current", .symlinkTo (pstr "2.0.0")),
    (pstr "2.0.0", .realDir (.validManifest (pstr "2.0.0"))),
    (pstr "1.5.0", .realDir (.validManifest (pstr "1.5.0")))]⟩

/-- Faults in which only the toolchain extraction fails. -/
def faultsTExtract : Faults := ⟨false, false, false, false, false, true, false⟩

/-! ### Theorems -/

-- Sanity checks of the model against the TestVersionToKey vectors.
example : version_to_key (pstr "3.0.0") = ⟨3, 0, 0, 0, 0, []⟩ := by decide

example : version_to_key (pstr "4.1.2-beta3") = ⟨4, 1, 2, -2, 3, []⟩ := by decide

example : version_to_key (pstr "5.0.0-rc1") = ⟨5, 0, 0, -1, 1, []⟩ := by decide

example : version_to_key (pstr "3.0.0-dp2") = ⟨3, 0, 0, -3, 2, []⟩ := by decide

example : version_to_key (pstr "notaversion") = ⟨0, 0, 0, 0, 0, pstr "notaversion"⟩ := by decide

example : version_to_key (pstr "3") = ⟨3, 0, 0, 0, 0, []⟩ := by decide

example : version_to_key (pstr "3.1") = ⟨3, 1, 0, 0, 0, []⟩ := by decide

example : version_to_key (pstr "") = ⟨0, 0, 0, 0, 0, []⟩ := by decide

example : parse_version (pstr "3.1") = .ok (3, 1, 0) := rfl

example : parse_version (pstr "") = .error .valueError := rfl

/-! ### Order-theoretic facts about the version key comparison -/

theorem chLt_irrefl (a : PStr) : chLt a a = false := by
  induction a with
  | nil => rfl
  | cons c cs ih => simp [chLt, ih]

theorem chLt_trans {a b c : PStr} (h1 : chLt a b = true) (h2 : chLt b c = true) :
    chLt a c = true := by
  induction a generalizing b c with
  | nil =>
    cases c with
    | nil =>
      cases b with
      | nil => simp [chLt] at h1
      | cons y ys => simp [chLt] at h2
    | cons z zs => rfl
  | cons x xs ih =>
    cases b with
    | nil => simp [chLt] at h1
    | cons y ys =>
      cases c with
      | nil => simp [chLt] at h2
      | cons z zs =>
        simp only [chLt] at h1 h2 ⊢
        by_cases hxy : x = y
        · subst hxy
          by_cases hxz : x = z
          · subst hxz
            simp only [if_pos rfl] at h1 h2 ⊢
            exact ih h1 h2
          · simp only [if_pos rfl] at h1
            simp only [if_neg hxz] at h2 ⊢
            exact h2
        · by_cases hyz : y = z
          · subst hyz
            simp only [if_neg hxy] at h1 ⊢
            exact h1
          · simp only [if_neg hxy] at h1
            simp only [if_neg hyz] at h2
            have hxz : x < z := lt_trans (of_decide_eq_true h1) (of_decide_eq_true h2)
            simp [ne_of_lt hxz, hxz]

theorem chLt_trichotomy (a b : PStr) : chLt a b = true ∨ a = b ∨ chLt b a = true := by
  induction a generalizing b with
  | nil =>
    cases b with
    | nil => exact Or.inr (Or.inl rfl)
    | cons y ys => exact Or.inl rfl
  | cons x xs ih =>
    cases b with
    | nil => exact Or.inr (Or.inr rfl)
    | cons y ys =>
      rcases lt_trichotomy x y with h | h | h
      · left; simp [chLt, ne_of_lt h, h]
      · subst h
        rcases ih ys with h' | h' | h'
        · left; simp [chLt, h']
        · subst h'; exact Or.inr (Or.inl rfl)
        · right; right; simp [chLt, h']
      · right; right; simp [chLt, ne_of_lt h, h]

theorem lexStep_self (x : Int) (r : Bool) : lexStep x x r = r := by
  simp [lexStep]

theorem keyLt_irrefl (a : VKey) : keyLt a a = false := by
  simp [keyLt, lexStep_self, chLt_irrefl]

theorem lexStep_trans {x y z : Int} {r s t : Bool}
    (hrs : r = true → s = true → t = true)
    (h1 : lexStep x y r = true) (h2 : lexStep y z s = true) :
    lexStep x z t = true := by
  simp only [lexStep, Bool.or_eq_true, Bool.and_eq_true, decide_eq_true_eq] at h1 h2 ⊢
  rcases h1 with h1 | ⟨hxy, hr⟩
  · rcases h2 with h2 | ⟨hyz, _⟩
    · exact Or.inl (lt_trans h1 h2)
    · exact Or.inl (hyz ▸ h1)
  · rcases h2 with h2 | ⟨hyz, hs⟩
    · exact Or.inl (hxy ▸ h2)
    · exact Or.inr ⟨hxy.trans hyz, hrs hr hs⟩

theorem keyLt_trans {a b c : VKey} (h1 : keyLt a b = true) (h2 : keyLt b c = true) :
    keyLt a c = true := by
  simp only [keyLt] at h1 h2 ⊢
  refine lexStep_trans (fun u1 u2 => ?_) h1 h2
  refine lexStep_trans (fun v1 v2 => ?_) u1 u2
  refine lexStep_trans (fun w1 w2 => ?_) v1 v2
  refine lexStep_trans (fun p1 p2 => ?_) w1 w2
  refine lexStep_trans (fun q1 q2 => ?_) p1 p2
  exact chLt_trans q1 q2

theorem keyLt_trichotomy (a b : VKey) : keyLt a b = true ∨ a = b ∨ keyLt b a = true := by
  obtain ⟨a1, a2, a3, a4, a5, a6⟩ := a
  obtain ⟨b1, b2, b3, b4, b5, b6⟩ := b
  rcases lt_trichotomy a1 b1 with h1 | h1 | h1
  · left; simp [keyLt, lexStep, h1]
  · subst h1
    rcases lt_trichotomy a2 b2 with h2 | h2 | h2
    · left; simp [keyLt, lexStep, lexStep_self, h2]
    · subst h2
      rcases lt_trichotomy a3 b3 with h3 | h3 | h3
      · left; simp [keyLt, lexStep, lexStep_self, h3]
      · subst h3
        rcases lt_trichotomy a4 b4 with h4 | h4 | h4
        · left; simp [keyLt, lexStep, lexStep_self, h4]
        · subst h4
          rcases lt_trichotomy a5 b5 with h5 | h5 | h5
          · left; simp [keyLt, lexStep, lexStep_self, h5]
          · subst h5
            rcases chLt_trichotomy a6 b6 with h6 | h6 | h6
            · left; simp [keyLt, lexStep_self, h6]
            · subst h6; exact Or.inr (Or.inl rfl)
            · right; right; simp [keyLt, lexStep_self, h6]
          · right; right; simp [keyLt, lexStep, lexStep_self, h5]
        · right; right; simp [keyLt, lexStep, lexStep_self, h4]
      · right; right; simp [keyLt, lexStep, lexStep_self, h3]
    · right; right; simp [keyLt, lexStep, lexStep_self, h2]
  · right; right; simp [keyLt, lexStep, h1]

theorem keyLt_asymm {a b : VKey} (h : keyLt a b = true) : keyLt b a = false := by
  by_contra hc
  have hba : keyLt b a = true := by
    cases hv : keyLt b a
    · exact absurd hv hc
    · rfl
  have := keyLt_trans h hba
  rw [keyLt_irrefl] at this
  exact Bool.false_ne_true this

theorem keyLt_ne {a b : VKey} (h : keyLt a b = true) : a ≠ b := by
  intro he
  subst he
  rw [keyLt_irrefl] at h
  exact Bool.false_ne_true h

theorem mem_pyInsert {le : α → α → Bool} {x a : α} {l : List α} :
    a ∈ pyInsert le x l ↔ a = x ∨ a ∈ l := by
  induction l with
  | nil => simp [pyInsert]
  | cons y ys ih =>
    simp only [pyInsert]
    by_cases h : le x y = true
    · simp [h]
    · simp only [if_neg h, List.mem_cons, ih]
      tauto

theorem mem_pySorted {le : α → α → Bool} {a : α} {l : List α} :
    a ∈ pySorted le l ↔ a ∈ l := by
  induction l with
  | nil => simp [pySorted]
  | cons x xs ih => simp [pySorted, mem_pyInsert, ih]

theorem pairwise_pyInsert {le : α → α → Bool}
    (htot : ∀ a b, le a b = true ∨ le b a = true)
    (htrans : ∀ a b c, le a b = true → le b c = true → le a c = true)
    {x : α} {l : List α}
    (hl : l.Pairwise (fun a b => le a b = true)) :
    (pyInsert le x l).Pairwise (fun a b => le a b = true) := by
  induction l with
  | nil => simp [pyInsert]
  | cons y ys ih =>
    rcases List.pairwise_cons.mp hl with ⟨hy, hys⟩
    by_cases h : le x y = true
    · simp only [pyInsert, if_pos h]
      refine List.pairwise_cons.mpr ⟨?_, hl⟩
      intro b hb
      rcases List.mem_cons.mp hb with hb | hb
      · exact hb ▸ h
      · exact htrans x y b h (hy b hb)
    · simp only [pyInsert, if_neg h]
      refine List.pairwise_cons.mpr ⟨?_, ih hys⟩
      intro b hb
      rcases mem_pyInsert.mp hb with hb | hb
      · subst hb
        rcases htot y b with hyb | hby
        · exact hyb
        · exact absurd hby h
      · exact hy b hb

theorem pairwise_pySorted {le : α → α → Bool}
    (htot : ∀ a b, le a b = true ∨ le b a = true)
    (htrans : ∀ a b c, le a b = true → le b c = true → le a c = true)
    (l : List α) :
    (pySorted le l).Pairwise (fun a b => le a b = true) := by
  induction l with
  | nil => simp [pySorted]
  | cons x xs ih => exact pairwise_pyInsert htot htrans ih

-- Path sanity checks.
example : normPath (joinPath (pstr "/sdks") (pstr "../sdks-evil")) = pstr "/sdks-evil" := by
  decide

example : normPath (pstr "/sdks/1.0") = pstr "/sdks/1.0" := by decide

example : normPath (joinPath (pstr "/sdks") (pstr "/etc/passwd")) = pstr "/etc/passwd" := by
  decide

/-! ### Helper lemmas about the filesystem model -/

theorem fsExists_rmtree_self (fs : List PStr) (p : PStr) :
    fsExists (rmtreeFS fs p) p = false := by
  simp [fsExists, rmtreeFS, List.mem_filter]

theorem fsExists_rmtree_below (fs : List PStr) {p q : PStr}
    (hq : chStarts q (p ++ ['/']) = true) :
    fsExists (rmtreeFS fs p) q = false := by
  simp [fsExists, rmtreeFS, List.mem_filter, hq]

/-- C1: installing an already-present version does fail with the
"already installed" error and performs no extraction — but the `except:`
handler of `_install_from_handle` then sees that the Python local `path` is
set and exists and calls `shutil.rmtree(path)` on it, destroying the
pre-existing installation of that version instead of leaving it untouched:
before the attempt `/sdks/1.0` and its manifest exist, afterwards they are
gone. -/
theorem c1_already_installed_destroys_existing :
    ((installFromHandle envStd stWith10 arch10 tarchEmpty noFaults false).2
      = some (.alreadyInstalled (pstr "1.0")))
  ∧ fsExists stWith10.fs (pstr "/sdks/1.0") = true
  ∧ fsExists stWith10.fs (pstr "/sdks/1.0/sdk-core/manifest.json") = true
  ∧ fsExists (installFromHandle envStd stWith10 arch10 tarchEmpty noFaults false).1.fs
      (pstr "/sdks/1.0") = false
  ∧ fsExists (installFromHandle envStd stWith10 arch10 tarchEmpty noFaults false).1.fs
      (pstr "/sdks/1.0/sdk-core/manifest.json") = false := by
  refine ⟨?_, ?_, ?_, ?_, ?_⟩ <;> decide

/-- C2 counterexample: the destination-containment check is
`path.startswith(self.sdk_dir)` — a plain string-prefix test — so a manifest
version of `../sdks-evil` under the root `/sdks` resolves to `/sdks-evil`,
which is *not* lexically inside the root, yet the install raises no security
error at all: it runs to completion and extracts the archive outside the SDK
root. -/
theorem c2_counterexample_prefix_escape :
    (normPath (joinPath envStd.sdkDir (pstr "../sdks-evil")) = pstr "/sdks-evil")
  ∧ lexInside envStd.sdkDir (pstr "/sdks-evil") = false
  ∧ chStarts (pstr "/sdks-evil") envStd.sdkDir = true
  ∧ ((installFromHandle envStd stFresh archEvil tarchStd noFaults false).2 = none)
  ∧ fsExists (installFromHandle envStd stFresh archEvil tarchStd noFaults false).1.fs
      (pstr "/sdks-evil") = true
  ∧ fsExists (installFromHandle envStd stFresh archEvil tarchStd noFaults false).1.fs
      (pstr "/sdks-evil/sdk-core/manifest.json") = true := by
  refine ⟨?_, ?_, ?_, ?_, ?_, ?_⟩ <;> decide

/-- C3: the claim is about total version parsing, but the parser defined in
the manager, `SDKManager.parse_version`, raises `ValueError` (from `int()`)
on the empty string and on non-numeric text, while it does zero-pad short
versions; the total behaviour demanded by the spec and by the
`TestVersionToKey` tests is only realised by the `version_to_key` helper
(modelled from the spec), which maps those inputs to the all-zero fallback
key. -/
theorem c3_parse_version_not_total :
    parse_version (pstr "") = .error .valueError
  ∧ parse_version (pstr "notaversion") = .error .valueError
  ∧ parse_version (pstr "3") = .ok (3, 0, 0)
  ∧ parse_version (pstr "3.1") = .ok (3, 1, 0)
  ∧ version_to_key (pstr "") = ⟨0, 0, 0, 0, 0, []⟩
  ∧ version_to_key (pstr "notaversion") = ⟨0, 0, 0, 0, 0, pstr "notaversion"⟩
  ∧ version_to_key (pstr "3") = version_to_key (pstr "3.0.0")
  ∧ version_to_key (pstr "3.1") = version_to_key (pstr "3.1.0") :=
  ⟨rfl, rfl, rfl, rfl, by decide, by decide, by decide, by decide⟩

/-- C8 counterexample: when the current pointer's target has a manifest that
exists but cannot be parsed, `get_current_sdk` does not return `None` — the
uncaught `json.load` `ValueError` propagates to the caller. -/
theorem c8_counterexample_unparseable_manifest :
    get_current_sdk rootBadCurrent = .error .valueError := rfl

/-- Whatever happens inside the `try:` body, the Python local `path` has been
set to the resolved destination as soon as the manifest was readable. -/
theorem installFinish_pathVar (env : SdkEnv) (st : AState) (tarch : ToolchainArchive)
    (faults : Faults) (info : SdkManifest) (path : PStr) :
    (installFinish env st tarch faults info path).pathVar = some path := by
  unfold installFinish
  repeat first | rfl | split

theorem installDeps_pathVar (env : SdkEnv) (st : AState) (tarch : ToolchainArchive)
    (faults : Faults) (info : SdkManifest) (path : PStr) :
    (installDeps env st tarch faults info path).pathVar = some path := by
  unfold installDeps
  repeat first | rfl | split | apply installFinish_pathVar

theorem installBuild_pathVar (env : SdkEnv) (st : AState) (arch : SdkArchive)
    (tarch : ToolchainArchive) (faults : Faults) (info : SdkManifest) (path : PStr) :
    (installBuild env st arch tarch faults info path).pathVar = some path := by
  unfold installBuild
  repeat first | rfl | split | apply installDeps_pathVar

theorem installAttempt_pathVar (env : SdkEnv) (st : AState) (arch : SdkArchive)
    (tarch : ToolchainArchive) (faults : Faults) (m : SdkManifest)
    (hm : arch.manifest = some m) :
    (installAttempt env st arch tarch faults).pathVar
      = some (normPath (joinPath env.sdkDir m.version)) := by
  simp only [installAttempt, hm]
  repeat first | rfl | split | apply installBuild_pathVar

/-- C5: for every install run (any archive, any injected step failures), the
outcome seen by the caller does not depend on whether the best-effort
`shutil.rmtree` in the `except:` handler succeeds — the original error is
re-raised either way — and in the run where the deletion succeeds, any
failure leaves the destination directory absent: it is deleted (or was never
created) before the original error propagates. -/
theorem c5_cleanup_best_effort (env : SdkEnv) (st : AState) (arch : SdkArchive)
    (tarch : ToolchainArchive) (faults : Faults) (b : Bool) (m : SdkManifest)
    (hm : arch.manifest = some m) :
    ((installFromHandle env st arch tarch faults b).2
      = (installFromHandle env st arch tarch faults false).2)
  ∧ (∀ e, (installFromHandle env st arch tarch faults false).2 = some e →
      fsExists (installFromHandle env st arch tarch faults false).1.fs
        (normPath (joinPath env.sdkDir m.version)) = false) := by
  have hp := installAttempt_pathVar env st arch tarch faults m hm
  constructor
  · simp only [installFromHandle]
    rcases herr : (installAttempt env st arch tarch faults).err with _ | e
    · simp [herr]
    · cases hex : fsExists (installAttempt env st arch tarch faults).st.fs
          (normPath (joinPath env.sdkDir m.version))
      · simp [herr, hp, hex]
      · cases b <;> simp [herr, hp, hex]
  · intro e he
    simp only [installFromHandle] at he ⊢
    rcases herr : (installAttempt env st arch tarch faults).err with _ | e'
    · simp [herr] at he
    · cases hex : fsExists (installAttempt env st arch tarch faults).st.fs
          (normPath (joinPath env.sdkDir m.version))
      · simp [herr, hp, hex]
      · simp [herr, hp, hex, fsExists_rmtree_self]

theorem c5_cleanup_best_effort_witness :
    ((installFromHandle envStd stFresh arch11 tarchStd faultsVenv true).2
      = (installFromHandle envStd stFresh arch11 tarchStd faultsVenv false).2)
  ∧ fsExists (installFromHandle envStd stFresh arch11 tarchStd faultsVenv false).1.fs
      (normPath (joinPath envStd.sdkDir (pstr "1.1"))) = false :=
  ⟨(c5_cleanup_best_effort envStd stFresh arch11 tarchStd faultsVenv true
      ⟨pstr "1.1", true⟩ rfl).1,
   (c5_cleanup_best_effort envStd stFresh arch11 tarchStd faultsVenv false
      ⟨pstr "1.1", true⟩ rfl).2 .venvFailed (by decide)⟩

/-- Shared helper: with a fresh destination, the member-name and
destination-prefix checks stop the run before any write, leaving the state
unchanged. -/
theorem security_checks_before_write (env : SdkEnv) (st : AState) (arch : SdkArchive)
    (tarch : ToolchainArchive) (faults : Faults) (b : Bool) (m : SdkManifest)
    (hm : arch.manifest = some m)
    (hfresh : fsExists st.fs (normPath (joinPath env.sdkDir m.version)) = false) :
    (∀ f, arch.members.find? badMember = some f →
      installFromHandle env st arch tarch faults b = (st, some (.questionableFile f))
        ∧ isSecurityError (.questionableFile f) = true)
  ∧ (arch.members.find? badMember = none →
      chStarts (normPath (joinPath env.sdkDir m.version)) env.sdkDir = false →
      installFromHandle env st arch tarch faults b = (st, some (.suspiciousVersion m.version))
        ∧ isSecurityError (.suspiciousVersion m.version) = true) := by
  constructor
  · intro f hf
    have ha : installAttempt env st arch tarch faults
        = ⟨st, some (.questionableFile f), some (normPath (joinPath env.sdkDir m.version))⟩ := by
      simp [installAttempt, hm, hfresh, hf]
    refine ⟨?_, rfl⟩
    simp [installFromHandle, ha, hfresh]
  · intro hnone hpref
    have ha : installAttempt env st arch tarch faults
        = ⟨st, some (.suspiciousVersion m.version),
           some (normPath (joinPath env.sdkDir m.version))⟩ := by
      simp [installAttempt, hm, hfresh, hnone, hpref]
    refine ⟨?_, rfl⟩
    simp [installFromHandle, ha, hfresh]

/-- C2 (amended): when the destination does not already exist, the two
archive-security checks run before any file is written: an archive with an
absolute or `..`-bearing member name is rejected with the questionable-file
error and the filesystem is left exactly as it was (so the destination is
absent), and likewise an archive whose manifest version fails the
destination check — which is the plain string-prefix test
`path.startswith(sdk_dir)`, not true lexical containment — is rejected with
the suspicious-version error naming the version, with no file written. -/
theorem c2_security_checks_before_write (env : SdkEnv) (st : AState) (arch : SdkArchive)
    (tarch : ToolchainArchive) (faults : Faults) (b : Bool) (m : SdkManifest)
    (hm : arch.manifest = some m)
    (hfresh : fsExists st.fs (normPath (joinPath env.sdkDir m.version)) = false) :
    (∀ f, arch.members.find? badMember = some f →
      installFromHandle env st arch tarch faults b = (st, some (.questionableFile f))
        ∧ isSecurityError (.questionableFile f) = true)
  ∧ (arch.members.find? badMember = none →
      chStarts (normPath (joinPath env.sdkDir m.version)) env.sdkDir = false →
      installFromHandle env st arch tarch faults b = (st, some (.suspiciousVersion m.version))
        ∧ isSecurityError (.suspiciousVersion m.version) = true) :=
  security_checks_before_write env st arch tarch faults b m hm hfresh

theorem c2_security_checks_before_write_witness :
    (installFromHandle envStd stFresh archBadMember tarchStd noFaults false
      = (stFresh, some (.questionableFile (pstr "/etc/passwd"))))
  ∧ (installFromHandle envStd stFresh archAbsVersion tarchStd noFaults false
      = (stFresh, some (.suspiciousVersion (pstr "/abs")))) :=
  ⟨((c2_security_checks_before_write envStd stFresh archBadMember tarchStd noFaults false
      ⟨pstr "2.0", true⟩ rfl (by decide)).1 (pstr "/etc/passwd") (by decide)).1,
   ((c2_security_checks_before_write envStd stFresh archAbsVersion tarchStd noFaults false
      ⟨pstr "/abs", true⟩ rfl (by decide)).2 (by decide) (by decide)).1⟩

/-- C10: the member filter rejects any name containing the two-character
substring ".." anywhere — `'..' in filename` — not only genuine
parent-directory segments: `sdk-core/a..b.txt` has no `..` path segment,
yet an SDK archive containing it (with a fresh destination) and a toolchain
archive containing it both fail with the questionable-file security error. -/
theorem c10_dotdot_substring_filter (env : SdkEnv) (st : AState) (arch : SdkArchive)
    (tarch : ToolchainArchive) (faults : Faults) (b : Bool) (v : PStr) (m : SdkManifest)
    (fs' : List PStr) (hm : arch.manifest = some m)
    (hfresh : fsExists st.fs (normPath (joinPath env.sdkDir m.version)) = false)
    (hmem : pstr "sdk-core/a..b.txt" ∈ arch.members)
    (hmem2 : pstr "sdk-core/a..b.txt" ∈ tarch.members) :
    hasDotDot (pstr "sdk-core/a..b.txt") = true
  ∧ (¬ pstr ".." ∈ chSplit '/' (pstr "sdk-core/a..b.txt"))
  ∧ (∃ f, (installFromHandle env st arch tarch faults b).2 = some (.questionableFile f)
      ∧ badMember f = true)
  ∧ (∃ f, (installToolchainFromHandle env fs' tarch faults v).2 = some (.questionableFile f)
      ∧ badMember f = true) := by
  refine ⟨by decide, by decide, ?_, ?_⟩
  · rcases hf : arch.members.find? badMember with _ | f
    · exact absurd (by decide : badMember (pstr "sdk-core/a..b.txt") = true)
        (List.find?_eq_none.mp hf _ hmem)
    · refine ⟨f, ?_, List.find?_some hf⟩
      rw [((security_checks_before_write env st arch tarch faults b m hm hfresh).1 f hf).1]
  · rcases hf : tarch.members.find? badMember with _ | f
    · exact absurd (by decide : badMember (pstr "sdk-core/a..b.txt") = true)
        (List.find?_eq_none.mp hf _ hmem2)
    · refine ⟨f, ?_, List.find?_some hf⟩
      simp [installToolchainFromHandle, hf]

theorem c10_dotdot_substring_filter_witness :
    hasDotDot (pstr "sdk-core/a..b.txt") = true
  ∧ (¬ pstr ".." ∈ chSplit '/' (pstr "sdk-core/a..b.txt"))
  ∧ (∃ f, (installFromHandle envStd stFresh archDotDot tarchDotDot noFaults false).2
      = some (.questionableFile f) ∧ badMember f = true)
  ∧ (∃ f, (installToolchainFromHandle envStd stFresh.fs tarchDotDot noFaults
      (pstr "2.1")).2 = some (.questionableFile f) ∧ badMember f = true) :=
  c10_dotdot_substring_filter envStd stFresh archDotDot tarchDotDot noFaults false
    (pstr "2.1") ⟨pstr "2.1", true⟩ stFresh.fs rfl (by decide) (by decide) (by decide)

/-- C4: `version_to_key` keys are totally ordered by the tuple comparison
`keyLt`, with build-stage classes ranked dev-preview < beta < rc < release
within the same numeric prefix; the chain
3.0.0 < 3.0.1 < 3.1.0-rc1 < 3.1.0 holds, and for all version strings
exactly one of a<b, a=b, b<a holds on their keys, with the relation
transitive. -/
theorem c4_version_key_total_order :
    (keyLt (version_to_key (pstr "3.0.0")) (version_to_key (pstr "3.0.1")) = true
     ∧ keyLt (version_to_key (pstr "3.0.1")) (version_to_key (pstr "3.1.0-rc1")) = true
     ∧ keyLt (version_to_key (pstr "3.1.0-rc1")) (version_to_key (pstr "3.1.0")) = true)
  ∧ (keyLt (version_to_key (pstr "3.1.0-dp1")) (version_to_key (pstr "3.1.0-beta1")) = true
     ∧ keyLt (version_to_key (pstr "3.1.0-beta1")) (version_to_key (pstr "3.1.0-rc1")) = true
     ∧ keyLt (version_to_key (pstr "3.1.0-rc1")) (version_to_key (pstr "3.1.0")) = true)
  ∧ (∀ a b : PStr,
      (keyLt (version_to_key a) (version_to_key b) = true
        ∧ version_to_key a ≠ version_to_key b
        ∧ keyLt (version_to_key b) (version_to_key a) = false)
      ∨ (keyLt (version_to_key a) (version_to_key b) = false
        ∧ version_to_key a = version_to_key b
        ∧ keyLt (version_to_key b) (version_to_key a) = false)
      ∨ (keyLt (version_to_key a) (version_to_key b) = false
        ∧ version_to_key a ≠ version_to_key b
        ∧ keyLt (version_to_key b) (version_to_key a) = true))
  ∧ (∀ a b c : PStr, keyLt (version_to_key a) (version_to_key b) = true →
      keyLt (version_to_key b) (version_to_key c) = true →
      keyLt (version_to_key a) (version_to_key c) = true) := by
  refine ⟨⟨by decide, by decide, by decide⟩, ⟨by decide, by decide, by decide⟩, ?_, ?_⟩
  · intro a b
    rcases keyLt_trichotomy (version_to_key a) (version_to_key b) with h | h | h
    · exact Or.inl ⟨h, keyLt_ne h, keyLt_asymm h⟩
    · refine Or.inr (Or.inl ⟨?_, h, ?_⟩)
      · rw [h, keyLt_irrefl]
      · rw [h, keyLt_irrefl]
    · refine Or.inr (Or.inr ⟨keyLt_asymm h, ?_, h⟩)
      exact fun he => keyLt_ne h he.symm
  · intro a b c h1 h2
    exact keyLt_trans h1 h2

theorem c4_version_key_total_order_witness :
    keyLt (version_to_key (pstr "3.0.0")) (version_to_key (pstr "3.1.0-rc1")) = true :=
  c4_version_key_total_order.2.2.2 (pstr "3.0.0") (pstr "3.0.1") (pstr "3.1.0-rc1")
    (by decide) (by decide)

/-- C7: `list_local_sdks` contains exactly the versions of entries that are
real directories with a parseable manifest — an entry that is a symlink,
lacks a manifest file, or has a manifest json.load rejects is silently
excluded (the source pre-checks existence, skips symlinks, and catches
`ValueError`, so no such entry can raise), and every entry with a
well-formed manifest is returned. -/
theorem c7_list_local_skips_invalid (r : SdkRoot) (v : PStr) :
    v ∈ list_local_sdks r ↔ ∃ n, (n, DirEntry.realDir (.validManifest v)) ∈ r.entries := by
  simp only [list_local_sdks, List.mem_filterMap]
  constructor
  · rintro ⟨⟨n, e⟩, hmem, he⟩
    cases e with
    | symlinkTo t => simp at he
    | realDir mf =>
      cases mf with
      | missing => simp at he
      | invalidSyntax => simp at he
      | validManifest w =>
        simp only [Option.some.injEq] at he
        exact ⟨n, he ▸ hmem⟩
  · rintro ⟨n, hmem⟩
    exact ⟨(n, .realDir (.validManifest v)), hmem, rfl⟩

/-- C8 (amended): `get_current_sdk` returns `None` when the current pointer
is absent, dangling, or its target's manifest file is missing, and returns
the target's manifest version when the manifest parses; but when the target
manifest exists and fails to parse the `ValueError` propagates (it does not
return `None`). -/
theorem c8_get_current_amended (r : SdkRoot) :
    (lookupEntry r (pstr "current") = none → get_current_sdk r = .ok none)
  ∧ (∀ t, lookupEntry r (pstr "current") = some (.symlinkTo t) →
      lookupEntry r t = none → get_current_sdk r = .ok none)
  ∧ (∀ t, lookupEntry r (pstr "current") = some (.symlinkTo t) →
      lookupEntry r t = some (.realDir .missing) → get_current_sdk r = .ok none)
  ∧ (∀ t v, lookupEntry r (pstr "current") = some (.symlinkTo t) →
      lookupEntry r t = some (.realDir (.validManifest v)) →
      get_current_sdk r = .ok (some v))
  ∧ (∀ t, lookupEntry r (pstr "current") = some (.symlinkTo t) →
      lookupEntry r t = some (.realDir .invalidSyntax) →
      get_current_sdk r = .error .valueError) := by
  refine ⟨?_, ?_, ?_, ?_, ?_⟩
  · intro h; simp [get_current_sdk, h]
  · intro t h1 h2; simp [get_current_sdk, h1, h2]
  · intro t h1 h2; simp [get_current_sdk, h1, h2]
  · intro t v h1 h2; simp [get_current_sdk, h1, h2]
  · intro t h1 h2; simp [get_current_sdk, h1, h2]

theorem c8_get_current_amended_witness :
    get_current_sdk (⟨[]⟩ : SdkRoot) = .ok none
  ∧ get_current_sdk rootGoodCurrent = .ok (some (pstr "1.0")) :=
  ⟨(c8_get_current_amended ⟨[]⟩).1 rfl,
   (c8_get_current_amended rootGoodCurrent).2.2.2.1 (pstr "1.0") (pstr "1.0")
     (by decide) (by decide)⟩

/-! ### Lemmas for the uninstall/current-pointer theorem -/

theorem keyGeB_total (a b : PStr) : keyGeB a b = true ∨ keyGeB b a = true := by
  unfold keyGeB
  cases h : keyLt (version_to_key a) (version_to_key b)
  · left; rfl
  · right
    simp [keyLt_asymm h]

theorem keyGeB_trans (a b c : PStr) (hab : keyGeB a b = true) (hbc : keyGeB b c = true) :
    keyGeB a c = true := by
  unfold keyGeB at hab hbc ⊢
  rw [Bool.not_eq_true'] at hab hbc
  rw [Bool.not_eq_true']
  cases hac : keyLt (version_to_key a) (version_to_key c)
  · rfl
  · exfalso
    rcases keyLt_trichotomy (version_to_key b) (version_to_key c) with h | h | h
    · exact Bool.false_ne_true (hbc ▸ h)
    · rw [← h] at hac
      exact Bool.false_ne_true (hab ▸ hac)
    · have := keyLt_trans hac h
      exact Bool.false_ne_true (hab ▸ this)

theorem lookupPairs_eq_of_mem {l : List (PStr × DirEntry)}
    (hnd : (l.map Prod.fst).Nodup) {n : PStr} {e : DirEntry}
    (h : (n, e) ∈ l) : lookupPairs l n = some e := by
  induction l with
  | nil => simp at h
  | cons p rest ih =>
    obtain ⟨m, d⟩ := p
    simp only [List.map_cons, List.nodup_cons] at hnd
    rcases List.mem_cons.mp h with h' | h'
    · injection h' with h1 h2
      subst h1
      subst h2
      simp [lookupPairs]
    · have hmn : m ≠ n := by
        intro he
        exact hnd.1 (he ▸ List.mem_map_of_mem Prod.fst h')
      have hstep : List.find? (fun e => decide (e.1 = n)) ((m, d) :: rest)
          = List.find? (fun e => decide (e.1 = n)) rest :=
        List.find?_cons_of_neg rest (by simp [hmn])
      unfold lookupPairs
      rw [hstep]
      exact ih hnd.2 h'

theorem lookupPairs_filter_ne (l : List (PStr × DirEntry)) {n m : PStr} (hne : n ≠ m) :
    lookupPairs (l.filter (fun e => !(decide (e.1 = m)))) n = lookupPairs l n := by
  induction l with
  | nil => rfl
  | cons p rest ih =>
    obtain ⟨a, d⟩ := p
    by_cases ham : a = m
    · subst ham
      have hna : ¬ a = n := fun he => hne he.symm
      simpa [List.filter_cons, lookupPairs, hna] using ih
    · by_cases han : a = n
      · subst han
        simp [List.filter_cons, lookupPairs, ham]
      · simpa [List.filter_cons, lookupPairs, ham, han] using ih

theorem lookupPairs_filter_self (l : List (PStr × DirEntry)) (m : PStr) :
    lookupPairs (l.filter (fun e => !(decide (e.1 = m)))) m = none := by
  induction l with
  | nil => rfl
  | cons p rest ih =>
    obtain ⟨a, d⟩ := p
    by_cases ham : a = m
    · subst ham
      simpa [List.filter_cons] using ih
    · simp [List.filter_cons, lookupPairs, ham]

theorem mem_list_local_iff (r : SdkRoot) (v : PStr) :
    v ∈ list_local_sdks r ↔ ∃ n, (n, DirEntry.realDir (.validManifest v)) ∈ r.entries := by
  simp only [list_local_sdks, List.mem_filterMap]
  constructor
  · rintro ⟨⟨n, e⟩, hmem, he⟩
    cases e with
    | symlinkTo t => simp at he
    | realDir mf =>
      cases mf with
      | missing => simp at he
      | invalidSyntax => simp at he
      | validManifest w =>
        simp only [Option.some.injEq] at he
        exact ⟨n, he ▸ hmem⟩
  · rintro ⟨n, hmem⟩
    exact ⟨(n, .realDir (.validManifest v)), hmem, rfl⟩

/-- C6: uninstalling the version the current pointer targets repoints the
pointer at the remaining installed version with the highest `version_to_key`
(and `get_current_sdk` then resolves to it), and clears the pointer entirely
when no installed version remains. -/
theorem c6_uninstall_repairs_pointer (r : SdkRoot) (v : PStr)
    (hnd : (r.entries.map Prod.fst).Nodup)
    (hcur : lookupEntry r (pstr "current") = some (.symlinkTo v))
    (hv : lookupEntry r v = some (.realDir (.validManifest v)))
    (hnames : namesMatchB r = true) :
    ∃ r', uninstall_sdk r v = .ok r'
      ∧ (list_local_sdks (removeEntry r v) = [] → currentTarget r' = none)
      ∧ (list_local_sdks (removeEntry r v) ≠ [] → ∃ top,
          currentTarget r' = some top
          ∧ get_current_sdk r' = .ok (some top)
          ∧ top ∈ list_local_sdks (removeEntry r v)
          ∧ ∀ u ∈ list_local_sdks (removeEntry r v),
              keyLt (version_to_key top) (version_to_key u) = false) := by
  have hvne : v ≠ pstr "current" := by
    intro he
    rw [he] at hv
    rw [hcur] at hv
    simp at hv
  have hgc : get_current_sdk r = .ok (some v) := by
    simp [get_current_sdk, hcur, hv]
  have hex : entryExistsFS r v = true := by
    simp [entryExistsFS, hv]
  have hnd1 : ((removeEntry r v).entries.map Prod.fst).Nodup :=
    hnd.sublist ((List.filter_sublist r.entries).map Prod.fst)
  have hcur1 : lookupEntry (removeEntry r v) (pstr "current") = some (.symlinkTo v) := by
    rw [removeEntry] at *
    exact (lookupPairs_filter_ne r.entries (fun he => hvne he.symm)).trans hcur
  cases hs : sortedDescByKey (list_local_sdks (removeEntry r v)) with
  | nil =>
    have hempty : list_local_sdks (removeEntry r v) = [] := by
      cases hl : list_local_sdks (removeEntry r v) with
      | nil => rfl
      | cons x xs =>
        exfalso
        have hxmem : x ∈ pySorted keyGeB (list_local_sdks (removeEntry r v)) :=
          mem_pySorted.mpr (hl ▸ List.mem_cons_self x xs)
        rw [show pySorted keyGeB (list_local_sdks (removeEntry r v))
            = sortedDescByKey (list_local_sdks (removeEntry r v)) from rfl, hs] at hxmem
        simp at hxmem
    refine ⟨removeEntry (removeEntry r v) (pstr "current"), ?_, ?_, ?_⟩
    · simp only [uninstall_sdk, hgc, hex, Bool.not_true, list_local_sdk_versions]
      rw [if_neg (by simp), if_pos trivial]
      rw [show sortedDescByKey (list_local_sdks (removeEntry r v)) = [] from hs]
      rw [hcur1]
    · intro _
      have hnone : lookupEntry (removeEntry (removeEntry r v) (pstr "current"))
          (pstr "current") = none :=
        lookupPairs_filter_self (removeEntry r v).entries (pstr "current")
      simp [currentTarget, hnone]
    · intro hne
      exact absurd hempty hne
  | cons top rest =>
    have htop_in : top ∈ list_local_sdks (removeEntry r v) := by
      have : top ∈ pySorted keyGeB (list_local_sdks (removeEntry r v)) := by
        rw [show pySorted keyGeB (list_local_sdks (removeEntry r v))
            = sortedDescByKey (list_local_sdks (removeEntry r v)) from rfl, hs]
        exact List.mem_cons_self top rest
      exact mem_pySorted.mp this
    obtain ⟨n, hn⟩ := (mem_list_local_iff (removeEntry r v) top).mp htop_in
    have hsubm : (n, DirEntry.realDir (.validManifest top)) ∈ r.entries :=
      List.mem_of_mem_filter hn
    have hnt : top = n := by
      have := List.all_eq_true.mp hnames _ hsubm
      simpa using this
    subst hnt
    have htopne : top ≠ pstr "current" := by
      intro he
      have h1 : lookupEntry r (pstr "current")
          = some (.realDir (.validManifest top)) := by
        rw [← he]
        exact lookupPairs_eq_of_mem hnd hsubm
      rw [hcur] at h1
      simp at h1
    have hlook1 : lookupEntry (removeEntry r v) top
        = some (.realDir (.validManifest top)) :=
      lookupPairs_eq_of_mem hnd1 hn
    have hex1 : entryExistsFS (removeEntry r v) top = true := by
      simp [entryExistsFS, hlook1]
    refine ⟨⟨(pstr "current", .symlinkTo top) ::
      (removeEntry (removeEntry r v) (pstr "current")).entries⟩, ?_, ?_, ?_⟩
    · simp only [uninstall_sdk, hgc, hex, Bool.not_true, list_local_sdk_versions]
      rw [if_neg (by simp), if_pos trivial]
      rw [show sortedDescByKey (list_local_sdks (removeEntry r v)) = top :: rest from hs]
      simp [set_current_sdk, hex1]
    · intro hempty
      rw [hempty] at htop_in
      simp at htop_in
    · intro _
      refine ⟨top, ?_, ?_, htop_in, ?_⟩
      · simp [currentTarget, lookupEntry, lookupPairs]
      · have hlook2 : lookupEntry (⟨(pstr "current", DirEntry.symlinkTo top) ::
            (removeEntry (removeEntry r v) (pstr "current")).entries⟩ : SdkRoot) top
            = some (.realDir (.validManifest top)) := by
          rw [lookupEntry, lookupPairs, List.find?_cons_of_neg _ (by simp [Ne.symm htopne])]
          rw [show (Option.map Prod.snd (List.find? (fun e => decide (e.1 = top))
            (removeEntry (removeEntry r v) (pstr "current")).entries))
            = lookupPairs (removeEntry (removeEntry r v) (pstr "current")).entries top
            from rfl]
          rw [removeEntry, removeEntry]
          exact (lookupPairs_filter_ne _ htopne).trans hlook1
        have hcur2 : lookupEntry (⟨(pstr "current", DirEntry.symlinkTo top) ::
            (removeEntry (removeEntry r v) (pstr "current")).entries⟩ : SdkRoot)
            (pstr "current") = some (.symlinkTo top) := by
          rw [lookupEntry, lookupPairs, List.find?_cons_of_pos _ (by simp)]
          rfl
        simp only [get_current_sdk, hcur2, hlook2]
      · intro u hu
        have humem : u ∈ pySorted keyGeB (list_local_sdks (removeEntry r v)) :=
          mem_pySorted.mpr hu
        rw [show pySorted keyGeB (list_local_sdks (removeEntry r v))
            = sortedDescByKey (list_local_sdks (removeEntry r v)) from rfl, hs] at humem
        rcases List.mem_cons.mp humem with h' | h'
        · subst h'
          exact keyLt_irrefl _
        · have hpw := @pairwise_pySorted PStr keyGeB
            (fun a b => keyGeB_total a b) (fun a b c => keyGeB_trans a b c)
            (list_local_sdks (removeEntry r v))
          rw [show pySorted keyGeB (list_local_sdks (removeEntry r v))
              = sortedDescByKey (list_local_sdks (removeEntry r v)) from rfl, hs] at hpw
          have := (List.pairwise_cons.mp hpw).1 u h'
          rwa [keyGeB, Bool.not_eq_true'] at this

theorem c6_uninstall_repairs_pointer_witness :
    (∃ r', uninstall_sdk rootC6 (pstr "3.0.0") = .ok r'
      ∧ (list_local_sdks (removeEntry rootC6 (pstr "3.0.0")) = [] → currentTarget r' = none)
      ∧ (list_local_sdks (removeEntry rootC6 (pstr "3.0.0")) ≠ [] → ∃ top,
          currentTarget r' = some top
          ∧ get_current_sdk r' = .ok (some top)
          ∧ top ∈ list_local_sdks (removeEntry rootC6 (pstr "3.0.0"))
          ∧ ∀ u ∈ list_local_sdks (removeEntry rootC6 (pstr "3.0.0")),
              keyLt (version_to_key top) (version_to_key u) = false))
  ∧ uninstall_sdk rootC6 (pstr "3.0.0") = .ok rootC6After
  ∧ currentTarget rootC6After = some (pstr "2.0.0")
  ∧ get_current_sdk rootC6After = .ok (some (pstr "2.0.0")) :=
  ⟨c6_uninstall_repairs_pointer rootC6 (pstr "3.0.0") (by decide) (by decide)
    (by decide) (by decide), rfl, by decide, rfl⟩

/-! ### Lemmas for the toolchain-atomicity theorem -/

theorem toolchain_keeps (env : SdkEnv) (fs : List PStr) (tarch : ToolchainArchive)
    (faults : Faults) (v : PStr) {p : PStr} (hp : p ∈ fs)
    (hpm : chStarts p (platformBaseOf env v ++ ['/']) = false)
    (hpt : p ≠ platformBaseOf env v) :
    p ∈ (installToolchainFromHandle env fs tarch faults v).1 := by
  unfold installToolchainFromHandle
  split
  · exact hp
  · split
    · exact hp
    · split
      · exact List.mem_cons_of_mem _ hp
      · split
        · exact List.mem_append_left _ (List.mem_cons_of_mem _ hp)
        · split
          · exact List.mem_append_left _ (List.mem_cons_of_mem _ hp)
          · apply List.mem_filter.mpr
            refine ⟨?_, by simp [hpt]⟩
            have hin : p ∈ extractAll (toolchainDirOf env v :: fs)
                (toolchainDirOf env v) tarch.members :=
              List.mem_append_left _ (List.mem_cons_of_mem _ hp)
            have hmapped := List.mem_map_of_mem
              (fun q => if chStarts q (platformBaseOf env v ++ ['/']) then
                toolchainDirOf env v ++ '/' :: q.drop ((platformBaseOf env v).length + 1)
              else q) hin
            simp only [hpm] at hmapped
            simpa using hmapped

theorem finish_keeps (env : SdkEnv) (st : AState) (tarch : ToolchainArchive)
    (faults : Faults) (info : SdkManifest) (path' : PStr) {p : PStr}
    (hp : p ∈ st.fs)
    (hpm : chStarts p (platformBaseOf env info.version ++ ['/']) = false)
    (hpt : p ≠ platformBaseOf env info.version) :
    p ∈ (installFinish env st tarch faults info path').st.fs := by
  unfold installFinish
  split
  · exact hp
  · split
    · exact hp
    · split
      next fsT e heq =>
        have hk := toolchain_keeps env st.fs tarch faults info.version hp hpm hpt
        rw [heq] at hk
        exact hk
      next fsT heq =>
        have hk := toolchain_keeps env st.fs tarch faults info.version hp hpm hpt
        rw [heq] at hk
        exact hk

theorem deps_keeps (env : SdkEnv) (st : AState) (tarch : ToolchainArchive)
    (faults : Faults) (info : SdkManifest) (path' : PStr) {p : PStr}
    (hp : p ∈ st.fs)
    (hpm : chStarts p (platformBaseOf env info.version ++ ['/']) = false)
    (hpt : p ≠ platformBaseOf env info.version) :
    p ∈ (installDeps env st tarch faults info path').st.fs := by
  unfold installDeps
  split
  · exact hp
  · split
    · exact List.mem_cons_of_mem _ hp
    · split
      · split
        · exact List.mem_cons_of_mem _ (List.mem_cons_of_mem _ (List.mem_cons_of_mem _ hp))
        · exact finish_keeps env _ tarch faults info path'
            (List.mem_cons_of_mem _ (List.mem_cons_of_mem _ (List.mem_cons_of_mem _ hp)))
            hpm hpt
      · exact finish_keeps env _ tarch faults info path'
          (List.mem_cons_of_mem _ hp) hpm hpt

theorem build_keeps (env : SdkEnv) (st : AState) (arch : SdkArchive)
    (tarch : ToolchainArchive) (faults : Faults) (info : SdkManifest) (path' : PStr)
    {p : PStr} (hp : p ∈ st.fs)
    (hpm : chStarts p (platformBaseOf env info.version ++ ['/']) = false)
    (hpt : p ≠ platformBaseOf env info.version) :
    p ∈ (installBuild env st arch tarch faults info path').st.fs := by
  unfold installBuild
  split
  · exact hp
  · exact deps_keeps env _ tarch faults info path' (List.mem_append_left _ hp) hpm hpt

theorem attempt_reduces (env : SdkEnv) (st : AState) (arch : SdkArchive)
    (tarch : ToolchainArchive) (faults : Faults) (m : SdkManifest)
    (hm : arch.manifest = some m)
    (hfresh : fsExists st.fs (normPath (joinPath env.sdkDir m.version)) = false)
    (hclean : arch.members.find? badMember = none)
    (hpref : chStarts (normPath (joinPath env.sdkDir m.version)) env.sdkDir = true)
    (hreq : m.requirementsOk = true) :
    installAttempt env st arch tarch faults
      = installBuild env ⟨normPath (joinPath env.sdkDir m.version) :: st.fs, st.current⟩
          arch tarch faults m (normPath (joinPath env.sdkDir m.version)) := by
  simp [installAttempt, hm, hfresh, hclean, hpref, hreq]

theorem build_success (env : SdkEnv) (st : AState) (arch : SdkArchive)
    (tarch : ToolchainArchive) (faults : Faults) (info : SdkManifest) (path' : PStr)
    (hex : faults.extractFails = false) :
    installBuild env st arch tarch faults info path'
      = installDeps env ⟨extractAll st.fs path' arch.members, st.current⟩
          tarch faults info path' := by
  unfold installBuild
  rw [if_neg (by simp [hex])]

theorem deps_success (env : SdkEnv) (st : AState) (tarch : ToolchainArchive)
    (faults : Faults) (info : SdkManifest) (path' : PStr)
    (hvenv : faults.venvFails = false) (hpip : faults.pipFails = false)
    (hnpm : faults.npmFails = false) :
    ∃ fs4, installDeps env st tarch faults info path'
        = installFinish env ⟨fs4, st.current⟩ tarch faults info path'
      ∧ st.fs ⊆ fs4 := by
  unfold installDeps
  rw [if_neg (by simp [hvenv]), if_neg (by simp [hpip])]
  split
  · rw [if_neg (by simp [hnpm])]
    refine ⟨_, rfl, fun q hq => ?_⟩
    exact List.mem_cons_of_mem _ (List.mem_cons_of_mem _ (List.mem_cons_of_mem _ hq))
  · exact ⟨_, rfl, fun q hq => List.mem_cons_of_mem _ hq⟩

theorem finish_success (env : SdkEnv) (st : AState) (tarch : ToolchainArchive)
    (faults : Faults) (info : SdkManifest) (path' : PStr)
    (hset : fsExists st.fs (normPath (joinPath env.sdkDir info.version)) = true)
    (hdl : faults.downloadFails = false)
    (ht : (installToolchainFromHandle env st.fs tarch faults info.version).2 = none) :
    installFinish env st tarch faults info path'
      = ⟨⟨(installToolchainFromHandle env st.fs tarch faults info.version).1,
          some (joinPath env.sdkDir info.version)⟩, none, some path'⟩ := by
  unfold installFinish
  rw [if_neg (by simp [hset]), if_neg (by simp [hdl])]
  rcases hres : installToolchainFromHandle env st.fs tarch faults info.version with ⟨fsT, err⟩
  rw [hres] at ht
  cases err with
  | none => rfl
  | some e => exact absurd ht (by simp)

theorem toolchain_success (env : SdkEnv) (fs : List PStr) (tarch : ToolchainArchive)
    (faults : Faults) (v : PStr)
    (hclean : tarch.members.find? badMember = none)
    (hcont : chStarts (toolchainDirOf env v) env.sdkDir = true)
    (hte : faults.toolchainExtractFails = false)
    (hmv : faults.moveFails = false)
    (hpf : (pstr "toolchain-" ++ env.platformName) ∈ tarch.members)
    (hnb : chStarts (toolchainDirOf env v) (platformBaseOf env v ++ ['/']) = false)
    (hne : toolchainDirOf env v ≠ platformBaseOf env v) :
    (installToolchainFromHandle env fs tarch faults v).2 = none
  ∧ fsExists (installToolchainFromHandle env fs tarch faults v).1
      (platformBaseOf env v) = false
  ∧ fsExists (installToolchainFromHandle env fs tarch faults v).1
      (toolchainDirOf env v) = true
  ∧ (∀ mem ∈ tarch.members,
      chStarts (toolchainDirOf env v ++ '/' :: mem) (platformBaseOf env v ++ ['/']) = true →
      (toolchainDirOf env v ++ '/' ::
        (toolchainDirOf env v ++ '/' :: mem).drop ((platformBaseOf env v).length + 1))
        ≠ platformBaseOf env v →
      fsExists (installToolchainFromHandle env fs tarch faults v).1
        (toolchainDirOf env v ++ '/' ::
          (toolchainDirOf env v ++ '/' :: mem).drop ((platformBaseOf env v).length + 1))
        = true) := by
  have hTBex : fsExists (extractAll (toolchainDirOf env v :: fs) (toolchainDirOf env v)
      tarch.members) (platformBaseOf env v) = true := by
    simp only [fsExists, extractAll, decide_eq_true_eq, List.mem_append, List.mem_map]
    exact Or.inr ⟨pstr "toolchain-" ++ env.platformName, hpf, rfl⟩
  have hred : installToolchainFromHandle env fs tarch faults v
      = (((extractAll (toolchainDirOf env v :: fs) (toolchainDirOf env v)
          tarch.members).map (fun p =>
            if chStarts p (platformBaseOf env v ++ ['/']) then
              toolchainDirOf env v ++ '/' :: p.drop ((platformBaseOf env v).length + 1)
            else p)).filter (fun p => !(decide (p = platformBaseOf env v))), none) := by
    unfold installToolchainFromHandle
    rw [hclean]
    rw [if_neg (by simp [hcont]), if_neg (by simp [hte]), if_neg (by simp [hTBex]),
      if_neg (by simp [hmv])]
  refine ⟨by rw [hred], ?_, ?_, ?_⟩
  · rw [hred]
    simp [fsExists, List.mem_filter]
  · rw [hred]
    simp only [fsExists, decide_eq_true_eq]
    apply List.mem_filter.mpr
    refine ⟨?_, by simp [hne]⟩
    have hin : toolchainDirOf env v ∈ extractAll (toolchainDirOf env v :: fs)
        (toolchainDirOf env v) tarch.members :=
      List.mem_append_left _ (List.mem_cons_self _ _)
    have hmapped := List.mem_map_of_mem
      (fun p => if chStarts p (platformBaseOf env v ++ ['/']) then
        toolchainDirOf env v ++ '/' :: p.drop ((platformBaseOf env v).length + 1)
      else p) hin
    simp only [hnb] at hmapped
    simpa using hmapped
  · intro mem hmem hstarts hnb2
    rw [hred]
    simp only [fsExists, decide_eq_true_eq]
    apply List.mem_filter.mpr
    refine ⟨?_, by simp [hnb2]⟩
    have hin : toolchainDirOf env v ++ '/' :: mem ∈ extractAll (toolchainDirOf env v :: fs)
        (toolchainDirOf env v) tarch.members :=
      List.mem_append_right _ (List.mem_map_of_mem _ hmem)
    have hmapped := List.mem_map_of_mem
      (fun p => if chStarts p (platformBaseOf env v ++ ['/']) then
        toolchainDirOf env v ++ '/' :: p.drop ((platformBaseOf env v).length + 1)
      else p) hin
    simp only [hstarts] at hmapped
    simpa using hmapped

/-- C9: for a well-formed SDK install reaching the toolchain stage (fresh
destination, clean members, passing checks, no failure before the toolchain
steps), the toolchain install is all-or-nothing from the caller's view:
if any toolchain-stage step fails, the propagated error triggers the
pipeline's cleanup, which removes the whole destination — so the toolchain
directory is absent (not a half-moved tree treated as valid); and when every
step succeeds, the platform-named top-level folder's contents have been
moved up into the toolchain directory and the emptied platform folder
removed. -/
theorem c9_toolchain_all_or_absent (env : SdkEnv) (st : AState) (arch : SdkArchive)
    (tarch : ToolchainArchive) (faults : Faults) (m : SdkManifest)
    (hm : arch.manifest = some m)
    (hfresh : fsExists st.fs (normPath (joinPath env.sdkDir m.version)) = false)
    (hclean : arch.members.find? badMember = none)
    (hpref : chStarts (normPath (joinPath env.sdkDir m.version)) env.sdkDir = true)
    (hreq : m.requirementsOk = true)
    (hex : faults.extractFails = false)
    (hvenv : faults.venvFails = false)
    (hpip : faults.pipFails = false)
    (hnpm : faults.npmFails = false)
    (hdl : faults.downloadFails = false)
    (hsub : chStarts (toolchainDirOf env m.version)
        (normPath (joinPath env.sdkDir m.version) ++ ['/']) = true)
    (hpm : chStarts (normPath (joinPath env.sdkDir m.version))
        (platformBaseOf env m.version ++ ['/']) = false)
    (hpt : normPath (joinPath env.sdkDir m.version) ≠ platformBaseOf env m.version) :
    (∀ e, (installFromHandle env st arch tarch faults false).2 = some e →
        fsExists (installFromHandle env st arch tarch faults false).1.fs
          (normPath (joinPath env.sdkDir m.version)) = false
        ∧ fsExists (installFromHandle env st arch tarch faults false).1.fs
          (toolchainDirOf env m.version) = false)
  ∧ (tarch.members.find? badMember = none →
      chStarts (toolchainDirOf env m.version) env.sdkDir = true →
      faults.toolchainExtractFails = false →
      faults.moveFails = false →
      (pstr "toolchain-" ++ env.platformName) ∈ tarch.members →
      chStarts (toolchainDirOf env m.version)
        (platformBaseOf env m.version ++ ['/']) = false →
      toolchainDirOf env m.version ≠ platformBaseOf env m.version →
      ((installFromHandle env st arch tarch faults false).2 = none
        ∧ fsExists (installFromHandle env st arch tarch faults false).1.fs
            (platformBaseOf env m.version) = false
        ∧ fsExists (installFromHandle env st arch tarch faults false).1.fs
            (toolchainDirOf env m.version) = true
        ∧ ∀ mem ∈ tarch.members,
            chStarts (toolchainDirOf env m.version ++ '/' :: mem)
              (platformBaseOf env m.version ++ ['/']) = true →
            (toolchainDirOf env m.version ++ '/' ::
              (toolchainDirOf env m.version ++ '/' :: mem).drop
                ((platformBaseOf env m.version).length + 1))
              ≠ platformBaseOf env m.version →
            fsExists (installFromHandle env st arch tarch faults false).1.fs
              (toolchainDirOf env m.version ++ '/' ::
                (toolchainDirOf env m.version ++ '/' :: mem).drop
                  ((platformBaseOf env m.version).length + 1)) = true)) := by
  have hred1 := attempt_reduces env st arch tarch faults m hm hfresh hclean hpref hreq
  have hp := installAttempt_pathVar env st arch tarch faults m hm
  constructor
  · intro e he
    have hkeep : normPath (joinPath env.sdkDir m.version)
        ∈ (installAttempt env st arch tarch faults).st.fs := by
      rw [hred1]
      exact build_keeps env _ arch tarch faults m _ (List.mem_cons_self _ _) hpm hpt
    rcases herr : (installAttempt env st arch tarch faults).err with _ | e'
    · simp [installFromHandle, herr] at he
    · have hexist : fsExists (installAttempt env st arch tarch faults).st.fs
          (normPath (joinPath env.sdkDir m.version)) = true := by
        simp [fsExists, hkeep]
      have hresult : installFromHandle env st arch tarch faults false
          = (⟨rmtreeFS (installAttempt env st arch tarch faults).st.fs
              (normPath (joinPath env.sdkDir m.version)),
              (installAttempt env st arch tarch faults).st.current⟩, some e') := by
        simp [installFromHandle, herr, hp, hexist]
      rw [hresult]
      exact ⟨fsExists_rmtree_self _ _, fsExists_rmtree_below _ hsub⟩
  · intro htclean htcont hte hmv hpf hnb hneq
    have hbred := build_success env
      ⟨normPath (joinPath env.sdkDir m.version) :: st.fs, st.current⟩
      arch tarch faults m (normPath (joinPath env.sdkDir m.version)) hex
    obtain ⟨fs4, hdred, hsub4⟩ := deps_success env
      ⟨extractAll (normPath (joinPath env.sdkDir m.version) :: st.fs)
        (normPath (joinPath env.sdkDir m.version)) arch.members, st.current⟩
      tarch faults m (normPath (joinPath env.sdkDir m.version)) hvenv hpip hnpm
    have hpin : normPath (joinPath env.sdkDir m.version) ∈ fs4 :=
      hsub4 (List.mem_append_left _ (List.mem_cons_self _ _))
    have hset : fsExists fs4 (normPath (joinPath env.sdkDir m.version)) = true := by
      simp [fsExists, hpin]
    have hts := toolchain_success env fs4 tarch faults m.version htclean htcont hte hmv
      hpf hnb hneq
    have hfred := finish_success env ⟨fs4, st.current⟩ tarch faults m
      (normPath (joinPath env.sdkDir m.version)) hset hdl hts.1
    have hattempt : installAttempt env st arch tarch faults
        = ⟨⟨(installToolchainFromHandle env fs4 tarch faults m.version).1,
            some (joinPath env.sdkDir m.version)⟩, none,
           some (normPath (joinPath env.sdkDir m.version))⟩ := by
      rw [hred1, hbred, hdred, hfred]
    have hresult : installFromHandle env st arch tarch faults false
        = (⟨(installToolchainFromHandle env fs4 tarch faults m.version).1,
            some (joinPath env.sdkDir m.version)⟩, none) := by
      simp [installFromHandle, hattempt]
    rw [hresult]
    exact ⟨rfl, hts.2.1, hts.2.2.1,
      fun mem hmem hst hne2 => hts.2.2.2 mem hmem hst hne2⟩

theorem c9_toolchain_all_or_absent_witness :
    ((installFromHandle envStd stFresh arch11 tarchStd noFaults false).2 = none
      ∧ fsExists (installFromHandle envStd stFresh arch11 tarchStd noFaults false).1.fs
          (platformBaseOf envStd (pstr "1.1")) = false
      ∧ fsExists (installFromHandle envStd stFresh arch11 tarchStd noFaults false).1.fs
          (toolchainDirOf envStd (pstr "1.1")) = true
      ∧ ∀ mem ∈ tarchStd.members,
          chStarts (toolchainDirOf envStd (pstr "1.1") ++ '/' :: mem)
            (platformBaseOf envStd (pstr "1.1") ++ ['/']) = true →
          (toolchainDirOf envStd (pstr "1.1") ++ '/' ::
            (toolchainDirOf envStd (pstr "1.1") ++ '/' :: mem).drop
              ((platformBaseOf envStd (pstr "1.1")).length + 1))
            ≠ platformBaseOf envStd (pstr "1.1") →
          fsExists (installFromHandle envStd stFresh arch11 tarchStd noFaults false).1.fs
            (toolchainDirOf envStd (pstr "1.1") ++ '/' ::
              (toolchainDirOf envStd (pstr "1.1") ++ '/' :: mem).drop
                ((platformBaseOf envStd (pstr "1.1")).length + 1)) = true)
  ∧ (fsExists (installFromHandle envStd stFresh arch11 tarchStd faultsTExtract false).1.fs
        (normPath (joinPath envStd.sdkDir (pstr "1.1"))) = false
      ∧ fsExists (installFromHandle envStd stFresh arch11 tarchStd faultsTExtract false).1.fs
        (toolchainDirOf envStd (pstr "1.1")) = false) :=
  ⟨(c9_toolchain_all_or_absent envStd stFresh arch11 tarchStd noFaults ⟨pstr "1.1", true⟩
      rfl (by decide) (by decide) (by decide) rfl rfl rfl rfl rfl rfl
      (by decide) (by decide) (by decide)).2
      (by decide) (by decide) rfl rfl (by decide) (by decide) (by decide),
   (c9_toolchain_all_or_absent envStd stFresh arch11 tarchStd faultsTExtract ⟨pstr "1.1", true⟩
      rfl (by decide) (by decide) (by decide) rfl rfl rfl rfl rfl rfl
      (by decide) (by decide) (by decide)).1
      .toolchainExtractionFailed (by decide)⟩
